import Mathlib

set_option maxRecDepth 8192

/-!
Verification of the Uniswap V3 swap-event indexer (a Ponder application).

The repository consists of an event handler (src/SwapContract.ts) that inserts
one row per decoded Swap event into the `swap` table, the table schema
(ponder.schema.ts), the chain/contract configuration (ponder.config.ts, with
startBlock 12376729 and endBlock 22797000), and a GraphQL query endpoint.

The storage, decoding and sync-range machinery live in the framework, outside
this repository; those parts are modelled here from the specification's
component contracts (Idempotent Store, Event Decoder, Chain Log Fetcher) and
each such definition is marked "Modelled from the spec".  The event handler,
the schema columns and the configured block range are embedded directly from
the source files.
-/

namespace UniV3

/-- Decoded arguments of the Swap event, per the ABI shape fixed by the spec:
sender (address), recipient (address), amount0 (int256), amount1 (int256),
sqrtPriceX96 (uint160), liquidity (uint128), tick (int24).  Addresses and
unsigned quantities are natural numbers, signed quantities are integers. -/
structure SwapArgs where
  sender : Nat
  recipient : Nat
  amount0 : Int
  amount1 : Int
  sqrtPriceX96 : Nat
  liquidity : Nat
  tick : Int
deriving DecidableEq

/-- Block metadata carried by an event (event.block in the handler). -/
structure BlockInfo where
  number : Nat
  timestamp : Nat
deriving DecidableEq

/-- Transaction metadata carried by an event (event.transaction in the handler). -/
structure TxInfo where
  hash : Nat
  index : Nat
deriving DecidableEq

/-- Log metadata carried by an event. -/
structure LogInfo where
  logIndex : Nat
deriving DecidableEq

/-- A decoded Swap event as delivered to the handler. -/
structure SwapEvent where
  args : SwapArgs
  block : BlockInfo
  transaction : TxInfo
  log : LogInfo
deriving DecidableEq

/-- The identifier type of `event.id`. -/
abbrev EventId := Nat × Nat × Nat

/-- Modelled from the spec: the framework-provided `event.id` is "derived
deterministically from (block hash or number, transaction index, log index)
so that re-fetching the same log always yields the same id". -/
def eventId (e : SwapEvent) : EventId :=
  (e.block.number, e.transaction.index, e.log.logIndex)

/-- A row of the `swap` table, with the twelve columns declared in
ponder.schema.ts (`createdAt` is the local ingestion timestamp). -/
structure SwapRow where
  id : EventId
  sender : Nat
  recipient : Nat
  amount0 : Int
  amount1 : Int
  sqrtPriceX96 : Nat
  liquidity : Nat
  tick : Int
  blockNumber : Nat
  blockTimestamp : Nat
  transactionHash : Nat
  createdAt : Nat
deriving DecidableEq

/-- The row built by the handler in src/SwapContract.ts: every chain-derived
column is copied from the event, and `createdAt` is `new Date()` at the moment
of insertion, modelled by the wall-clock parameter `now`. -/
def swapHandlerRow (now : Nat) (e : SwapEvent) : SwapRow :=
  { id := eventId e
    sender := e.args.sender
    recipient := e.args.recipient
    amount0 := e.args.amount0
    amount1 := e.args.amount1
    sqrtPriceX96 := e.args.sqrtPriceX96
    liquidity := e.args.liquidity
    tick := e.args.tick
    blockNumber := e.block.number
    blockTimestamp := e.block.timestamp
    transactionHash := e.transaction.hash
    createdAt := now }

/-- The state of the `swap` table: its list of rows. -/
abbrev Store := List SwapRow

/-- Whether the table already holds a row with the given id. -/
def hasId (s : Store) (i : EventId) : Bool :=
  s.any (fun r => decide (r.id = i))

/-- Modelled from the spec: the Idempotent Store's `upsert` "inserts a record
if its `id` is absent, or is a no-op if present (fields are never overwritten
after first insertion)". -/
def upsert (s : Store) (r : SwapRow) : Store :=
  if hasId s r.id then s else s ++ [r]

/-- Modelled from the spec: the Idempotent Store's `deleteFrom(blockNumber)`
"removes all rows with `blockNumber` >= given value (used for reorg
rollback)". -/
def deleteFrom (s : Store) (n : Nat) : Store :=
  s.filter (fun r => decide (r.blockNumber < n))

/-- Ingest one decoded event: the handler builds the row and the store
persists it. -/
def ingest (s : Store) (now : Nat) (e : SwapEvent) : Store :=
  upsert s (swapHandlerRow now e)

/-- Ingest a sequence of decoded events, in order, at wall-clock time `now`. -/
def ingestAll (s : Store) (now : Nat) (es : List SwapEvent) : Store :=
  es.foldl (fun st e => ingest st now e) s

/-- The configured start block, from ponder.config.ts. -/
def startBlock : Nat := 12376729

/-- The configured end block, from ponder.config.ts. -/
def endBlock : Nat := 22797000

/-- Modelled from the spec: the Chain Log Fetcher "returns the ordered
sequence of raw log entries matching that address and topic within the
inclusive range"; the chain is modelled as the list of this contract's
events. -/
def getLogs (chain : List SwapEvent) (fromBlock toBlock : Nat) : List SwapEvent :=
  chain.filter (fun e => decide (fromBlock ≤ e.block.number) && decide (e.block.number ≤ toBlock))

/-- Modelled from the spec: the Sync Driver orchestrates fetcher, decoder and
store "from configured start block" to the configured end block, so the whole
run ingests exactly the logs of the configured inclusive range. -/
def syncConfigured (chain : List SwapEvent) (now : Nat) : Store :=
  ingestAll [] now (getLogs chain startBlock endBlock)

/-- A concrete Swap event matching the spec's end-to-end example:
amount0 = -500000000000000000 (ETH sold), amount1 = 1800000000 (USDC bought),
blockNumber = 18000000. -/
def exEvent : SwapEvent :=
  { args := { sender := 0xa0b1c2
              recipient := 0xd3e4f5
              amount0 := -500000000000000000
              amount1 := 1800000000
              sqrtPriceX96 := 1845071831253543665535
              liquidity := 21785492274
              tick := 200311 }
    block := { number := 18000000, timestamp := 1692800000 }
    transaction := { hash := 0xfeedbead, index := 3 }
    log := { logIndex := 7 } }

/-- A filter for the query interface: an optional predicate per filterable
column (exact match on addresses, range predicates on amounts and block
fields), any combination of which may be active. -/
structure QueryFilter where
  senderEq : Option Nat
  recipientEq : Option Nat
  amount0Gt : Option Int
  amount1Gt : Option Int
  blockNumberGe : Option Nat
  blockNumberLe : Option Nat
deriving DecidableEq

/-- An inactive predicate accepts every row. -/
def matchOpt {α : Type} (o : Option α) (p : α → Bool) : Bool :=
  match o with
  | none => true
  | some v => p v

/-- Whether a row satisfies every active predicate of a filter. -/
def matchesFilter (f : QueryFilter) (r : SwapRow) : Bool :=
  matchOpt f.senderEq (fun v => decide (r.sender = v)) &&
  matchOpt f.recipientEq (fun v => decide (r.recipient = v)) &&
  matchOpt f.amount0Gt (fun v => decide (v < r.amount0)) &&
  matchOpt f.amount1Gt (fun v => decide (v < r.amount1)) &&
  matchOpt f.blockNumberGe (fun v => decide (v ≤ r.blockNumber)) &&
  matchOpt f.blockNumberLe (fun v => decide (r.blockNumber ≤ v))

/-- A column usable as a sort key. -/
inductive OrderCol where
  | amount0
  | amount1
  | blockNumber
  | blockTimestamp
deriving DecidableEq

/-- Sort direction. -/
inductive OrderDir where
  | asc
  | desc
deriving DecidableEq

/-- The sort key of a row under a given column. -/
def colKey : OrderCol → SwapRow → Int
  | .amount0, r => r.amount0
  | .amount1, r => r.amount1
  | .blockNumber, r => (r.blockNumber : Int)
  | .blockTimestamp, r => (r.blockTimestamp : Int)

/-- The row ordering induced by a column and a direction. -/
def orderLe (c : OrderCol) (d : OrderDir) (a b : SwapRow) : Bool :=
  match d with
  | .asc => decide (colKey c a ≤ colKey c b)
  | .desc => decide (colKey c b ≤ colKey c a)

/-- Modelled from the spec: the Idempotent Store's `query(filter, order,
limit)` "supports filtering by any combination of exact/range predicates,
ordering by any single column ascending or descending, and a bounded result
count". -/
def query (s : Store) (f : QueryFilter) (c : OrderCol) (d : OrderDir)
    (limit : Option Nat) : List SwapRow :=
  let rows := (s.filter (matchesFilter f)).mergeSort (orderLe c d)
  match limit with
  | none => rows
  | some n => rows.take n

/-- The filter of the spec's example query: only `amount1 > v` is active. -/
def amount1GtFilter (v : Int) : QueryFilter :=
  { senderEq := none
    recipientEq := none
    amount0Gt := none
    amount1Gt := some v
    blockNumberGe := none
    blockNumberLe := none }

/-- Two's-complement decoding of a 256-bit ABI word as a signed integer. -/
def decodeIntWord (w : Nat) : Int :=
  if w < 2 ^ 255 then (w : Int) else (w : Int) - 2 ^ 256

/-- Two's-complement encoding of a signed integer as a 256-bit ABI word. -/
def encodeIntWord (x : Int) : Nat :=
  (x % (2 ^ 256 : Int)).toNat

/-- Whether a 256-bit word is a valid sign-extended encoding of a signed
integer of the given bit width. -/
def validSignedWord (bits : Nat) (w : Nat) : Bool :=
  decide (w < 2 ^ (bits - 1)) ||
    (decide (2 ^ 256 - 2 ^ (bits - 1) ≤ w) && decide (w < 2 ^ 256))

/-- Modelled from the spec: the Event Decoder, "given the ABI-described shape
of the Swap event (named, typed fields, order fixed) and a raw log, produces a
typed SwapEvent record or fails with a decode error if the raw data's
length/layout does not match the expected shape".  A raw log's data is the
list of its seven 256-bit words, in the fixed field order. -/
def decodeSwap (ws : List Nat) : Option SwapArgs :=
  match ws with
  | [w0, w1, w2, w3, w4, w5, w6] =>
    if decide (w0 < 2 ^ 160) && decide (w1 < 2 ^ 160) &&
        validSignedWord 256 w2 && validSignedWord 256 w3 &&
        decide (w4 < 2 ^ 160) && decide (w5 < 2 ^ 128) &&
        validSignedWord 24 w6 then
      some { sender := w0
             recipient := w1
             amount0 := decodeIntWord w2
             amount1 := decodeIntWord w3
             sqrtPriceX96 := w4
             liquidity := w5
             tick := decodeIntWord w6 }
    else none
  | _ => none

/-- Modelled from the spec: re-encoding a decoded record back into raw words,
in the same fixed field order and widths. -/
def encodeSwap (a : SwapArgs) : List Nat :=
  [a.sender, a.recipient, encodeIntWord a.amount0, encodeIntWord a.amount1,
    a.sqrtPriceX96, a.liquidity, encodeIntWord a.tick]

/-- A value stored in one column of a row. -/
inductive ColValue where
  | hexId (i : EventId)
  | hex (n : Nat)
  | bigint (i : Int)
  | int (i : Int)
  | timestamp (t : Nat)
deriving DecidableEq

/-- The twelve column names declared in ponder.schema.ts. -/
def swapColumns : List String :=
  ["id", "sender", "recipient", "amount0", "amount1", "sqrtPriceX96",
    "liquidity", "tick", "blockNumber", "blockTimestamp", "transactionHash",
    "createdAt"]

/-- The column values of a stored row, by column name. -/
def rowGet (r : SwapRow) (c : String) : Option ColValue :=
  if c = "id" then some (.hexId r.id)
  else if c = "sender" then some (.hex r.sender)
  else if c = "recipient" then some (.hex r.recipient)
  else if c = "amount0" then some (.bigint r.amount0)
  else if c = "amount1" then some (.bigint r.amount1)
  else if c = "sqrtPriceX96" then some (.bigint r.sqrtPriceX96)
  else if c = "liquidity" then some (.bigint r.liquidity)
  else if c = "tick" then some (.int r.tick)
  else if c = "blockNumber" then some (.bigint r.blockNumber)
  else if c = "blockTimestamp" then some (.bigint r.blockTimestamp)
  else if c = "transactionHash" then some (.hex r.transactionHash)
  else if c = "createdAt" then some (.timestamp r.createdAt)
  else none

/-- The not-null check induced by the schema: ponder.schema.ts declares every
column `.notNull()` (or primary key), so a candidate row assignment passes
only when every declared column carries a value. -/
def notNullOk (g : String → Option ColValue) : Bool :=
  swapColumns.all (fun c => (g c).isSome)

/-- The chain-derived columns of a row: every column except `createdAt`. -/
def chainFields (r : SwapRow) :
    EventId × Nat × Nat × Int × Int × Nat × Nat × Int × Nat × Nat × Nat :=
  (r.id, r.sender, r.recipient, r.amount0, r.amount1, r.sqrtPriceX96,
    r.liquidity, r.tick, r.blockNumber, r.blockTimestamp, r.transactionHash)

/-- The id-uniqueness invariant of the `swap` table: `id` is its primary key. -/
def uniqueIds (s : Store) : Prop :=
  (s.map SwapRow.id).Nodup

theorem swapHandlerRow_id (now : Nat) (e : SwapEvent) :
    (swapHandlerRow now e).id = eventId e := rfl

theorem swapHandlerRow_blockNumber (now : Nat) (e : SwapEvent) :
    (swapHandlerRow now e).blockNumber = e.block.number := rfl

theorem hasId_append (s t : Store) (i : EventId) :
    hasId (s ++ t) i = (hasId s i || hasId t i) := by
  simp [hasId, List.any_append]

/-- C1: for every SwapEvent whose id is already present in the swap table,
ingesting it again (upsert with a duplicate id) is a no-op rather than an
error: the operation succeeds and the stored row keeps the field values from
its first insertion. -/
theorem upsert_duplicate_is_noop (s : Store) (r r' : SwapRow)
    (hid : r'.id = r.id) :
    upsert (upsert s r) r' = upsert s r := by
  unfold upsert
  by_cases h : hasId s r.id = true
  · simp [h, hid]
  · have h1 : hasId (s ++ [r]) r'.id = true := by
      simp [hasId, List.any_append, hid]
    simp [h, h1, upsert]

/-- Witness for C1: re-upserting the example row with a later wall-clock
timestamp leaves the stored table unchanged. -/
theorem upsert_duplicate_is_noop_witness :
    upsert (upsert [] (swapHandlerRow 0 exEvent)) (swapHandlerRow 1 exEvent)
      = upsert [] (swapHandlerRow 0 exEvent) :=
  upsert_duplicate_is_noop [] (swapHandlerRow 0 exEvent)
    (swapHandlerRow 1 exEvent) rfl

/-- C2: every raw Swap log fed to the pipeline stores exactly one SwapEvent
row whose chain-derived fields equal the values decoded from the log's args,
block and transaction; the id is the same on every ingestion of the identical
log, and the spec's example log (amount0 = -500000000000000000,
amount1 = 1800000000, blockNumber = 18000000) yields exactly those values. -/
theorem handler_stores_one_row_with_decoded_fields (now now2 : Nat)
    (e : SwapEvent) :
    ingest [] now e = [swapHandlerRow now e] ∧
    (swapHandlerRow now e).sender = e.args.sender ∧
    (swapHandlerRow now e).recipient = e.args.recipient ∧
    (swapHandlerRow now e).amount0 = e.args.amount0 ∧
    (swapHandlerRow now e).amount1 = e.args.amount1 ∧
    (swapHandlerRow now e).sqrtPriceX96 = e.args.sqrtPriceX96 ∧
    (swapHandlerRow now e).liquidity = e.args.liquidity ∧
    (swapHandlerRow now e).tick = e.args.tick ∧
    (swapHandlerRow now e).blockNumber = e.block.number ∧
    (swapHandlerRow now e).blockTimestamp = e.block.timestamp ∧
    (swapHandlerRow now e).transactionHash = e.transaction.hash ∧
    (swapHandlerRow now2 e).id = (swapHandlerRow now e).id ∧
    ingest (ingest [] now e) now2 e = ingest [] now e ∧
    (swapHandlerRow now exEvent).amount0 = -500000000000000000 ∧
    (swapHandlerRow now exEvent).amount1 = 1800000000 ∧
    (swapHandlerRow now exEvent).blockNumber = 18000000 := by
  refine ⟨rfl, rfl, rfl, rfl, rfl, rfl, rfl, rfl, rfl, rfl, rfl, rfl, ?_,
    rfl, rfl, rfl⟩
  simp [ingest, upsert, hasId, swapHandlerRow_id]

/-- C6: the createdAt field of every stored row is the local wall-clock
timestamp at insertion and depends on no chain-derived input: two different
events ingested at the same wall-clock time get the same createdAt. -/
theorem createdAt_is_wall_clock (now : Nat) (e1 e2 : SwapEvent) :
    (swapHandlerRow now e1).createdAt = now ∧
    (swapHandlerRow now e1).createdAt = (swapHandlerRow now e2).createdAt :=
  ⟨rfl, rfl⟩

/-- C4: id is a primary key — in every table state satisfying the uniqueness
invariant, the store operations preserve it, distinct rows have distinct ids,
and the id derived for a log does not depend on when it is ingested, so
re-fetching and ingesting the same log always produces the same id. -/
theorem ids_unique_and_deterministic (s : Store) (r : SwapRow) (n : Nat)
    (e : SwapEvent) (h : uniqueIds s) :
    uniqueIds (upsert s r) ∧ uniqueIds (deleteFrom s n) ∧
    (∀ r1 r2, r1 ∈ s → r2 ∈ s → r1 ≠ r2 → r1.id ≠ r2.id) ∧
    (∀ t1 t2 : Nat, (swapHandlerRow t1 e).id = (swapHandlerRow t2 e).id) := by
  refine ⟨?_, ?_, ?_, fun t1 t2 => rfl⟩
  · by_cases hh : hasId s r.id = true
    · simpa [upsert, hh] using h
    · have hf : hasId s r.id = false := by simpa using hh
      have hn : r.id ∉ s.map SwapRow.id := by
        intro hmem
        rcases List.mem_map.mp hmem with ⟨x, hx, hxid⟩
        have : s.any (fun y => decide (y.id = r.id)) = true :=
          List.any_eq_true.mpr ⟨x, hx, by simp [hxid]⟩
        exact hh this
      have : uniqueIds (s ++ [r]) := by
        unfold uniqueIds
        rw [List.map_append]
        exact List.Nodup.append h (List.nodup_singleton _)
          (fun x hx hxa => hn (List.mem_singleton.mp hxa ▸ hx))
      simpa [upsert, hf] using this
  · have hsub : List.Sublist ((deleteFrom s n).map SwapRow.id)
        (s.map SwapRow.id) :=
      List.Sublist.map _ (List.filter_sublist s)
    exact hsub.nodup h
  · intro r1 r2 h1 h2 hne heq
    exact hne (List.inj_on_of_nodup_map h h1 h2 heq)

/-- Witness for C4: inserting the example row into the empty table preserves
id uniqueness. -/
theorem ids_unique_and_deterministic_witness :
    uniqueIds (upsert [] (swapHandlerRow 0 exEvent)) :=
  (ids_unique_and_deterministic [] (swapHandlerRow 0 exEvent) 0 exEvent
    (by simp [uniqueIds])).1

/-- C5: rows are never updated in place — an upsert leaves every existing row
untouched and at most appends one new row (only when its id is absent), and a
reorg rollback removes exactly the whole rows at or past the rollback block,
so no field of a stored row is ever modified after its first insertion. -/
theorem rows_only_created_or_deleted (s : Store) (r' : SwapRow) (n : Nat) :
    (∀ r, r ∈ upsert s r' ↔ (r ∈ s ∨ (hasId s r'.id = false ∧ r = r'))) ∧
    (∀ r, r ∈ s → r ∈ upsert s r') ∧
    (∀ r, r ∈ deleteFrom s n ↔ (r ∈ s ∧ r.blockNumber < n)) := by
  refine ⟨?_, ?_, ?_⟩
  · intro r
    by_cases h : hasId s r'.id = true
    · simp [upsert, h]
    · have hf : hasId s r'.id = false := by simpa using h
      simp [upsert, hf, List.mem_append]
  · intro r hr
    by_cases h : hasId s r'.id = true
    · simpa [upsert, h] using hr
    · have hf : hasId s r'.id = false := by simpa using h
      simp [upsert, hf, List.mem_append, hr]
  · intro r
    simp [deleteFrom, List.mem_filter]

/-- Witness for C5: the example row inserted into the empty table is stored
exactly as built, and survives as a member of the resulting table. -/
theorem rows_only_created_or_deleted_witness :
    swapHandlerRow 0 exEvent ∈ upsert [] (swapHandlerRow 0 exEvent) :=
  ((rows_only_created_or_deleted [] (swapHandlerRow 0 exEvent) 0).1 _).mpr
    (Or.inr ⟨rfl, rfl⟩)

theorem orderLe_total (c : OrderCol) (d : OrderDir) (a b : SwapRow) :
    (orderLe c d a b || orderLe c d b a) = true := by
  cases d <;> simp [orderLe] <;> exact le_total _ _

theorem orderLe_trans (c : OrderCol) (d : OrderDir) (a b e : SwapRow)
    (hab : orderLe c d a b = true) (hbe : orderLe c d b e = true) :
    orderLe c d a e = true := by
  cases d <;> simp [orderLe] at hab hbe ⊢
  · exact le_trans hab hbe
  · exact le_trans hbe hab

/-- C7: a query filtering on amount1 > 1_000_000_000 returns exactly the rows
whose amount1 exceeds the threshold and no others, sorted according to the
requested order (either direction on the amount1 column). -/
theorem query_amount1_gt_exact_and_sorted (s : Store) (d : OrderDir) :
    (∀ r, r ∈ query s (amount1GtFilter 1000000000) .amount1 d none ↔
      (r ∈ s ∧ 1000000000 < r.amount1)) ∧
    (query s (amount1GtFilter 1000000000) .amount1 d none).Pairwise
      (fun a b => orderLe .amount1 d a b = true) := by
  constructor
  · intro r
    simp [query, List.mem_mergeSort, List.mem_filter, matchesFilter,
      amount1GtFilter, matchOpt]
  · exact List.sorted_mergeSort
      (fun a b e hab hbe => orderLe_trans .amount1 d a b e hab hbe)
      (fun a b => orderLe_total .amount1 d a b) _

theorem encodeIntWord_decodeIntWord (w : Nat) (hw : w < 2 ^ 256) :
    encodeIntWord (decodeIntWord w) = w := by
  have hmod : (w : Int) % 2 ^ 256 = (w : Int) :=
    Int.emod_eq_of_lt (by exact_mod_cast Nat.zero_le w) (by exact_mod_cast hw)
  by_cases h : w < 2 ^ 255
  · rw [decodeIntWord, if_pos h, encodeIntWord, hmod]
    simp
  · rw [decodeIntWord, if_neg h, encodeIntWord]
    have h2 : ((w : Int) - 2 ^ 256) % 2 ^ 256 = (w : Int) % 2 ^ 256 := by
      have h3 := Int.add_mul_emod_self_left (w : Int) (2 ^ 256) (-1)
      rw [Int.mul_neg, Int.mul_one, ← Int.sub_eq_add_neg] at h3
      exact h3
    rw [h2, hmod]
    simp

theorem validSignedWord_lt (bits w : Nat) (hb : bits ≤ 256)
    (h : validSignedWord bits w = true) : w < 2 ^ 256 := by
  simp [validSignedWord] at h
  rcases h with h | ⟨_, h2⟩
  · calc w < 2 ^ (bits - 1) := h
      _ ≤ 2 ^ 256 := Nat.pow_le_pow_right (by norm_num) (by omega)
  · exact h2

/-- C8: for every raw log whose seven data words match the Swap event shape
(sender, recipient, amount0, amount1, sqrtPriceX96, liquidity, tick, in fixed
order and widths), decoding the log and re-encoding the decoded record yields
the original words. -/
theorem decode_encode_roundtrip (ws : List Nat) (a : SwapArgs)
    (h : decodeSwap ws = some a) :
    encodeSwap a = ws := by
  rcases ws with _ | ⟨w0, _ | ⟨w1, _ | ⟨w2, _ | ⟨w3, _ | ⟨w4, _ | ⟨w5,
    _ | ⟨w6, _ | ⟨w7, tl⟩⟩⟩⟩⟩⟩⟩⟩ <;> simp [decodeSwap] at h
  rcases h with ⟨⟨⟨⟨⟨⟨⟨h0, h1⟩, h2⟩, h3⟩, h4⟩, h5⟩, h6⟩, ha⟩
  subst ha
  have e2 := encodeIntWord_decodeIntWord w2 (validSignedWord_lt 256 w2 Nat.le.refl h2)
  have e3 := encodeIntWord_decodeIntWord w3 (validSignedWord_lt 256 w3 Nat.le.refl h3)
  have e6 := encodeIntWord_decodeIntWord w6
    (validSignedWord_lt 24 w6 (by norm_num) h6)
  simp [encodeSwap, e2, e3, e6]

/-- Witness for C8: the decoder accepts a concrete raw log matching the Swap
shape (with a negative amount0 in two's complement), and re-encoding its
decoded record reproduces the original words. -/
theorem decode_encode_roundtrip_witness :
    encodeSwap { sender := 0xa0b1c2
                 recipient := 0xd3e4f5
                 amount0 := -500000000000000000
                 amount1 := 1800000000
                 sqrtPriceX96 := 1845071831253543665535
                 liquidity := 21785492274
                 tick := 200311 }
      = [0xa0b1c2, 0xd3e4f5, 2 ^ 256 - 500000000000000000, 1800000000,
          1845071831253543665535, 21785492274, 200311] :=
  decode_encode_roundtrip _ _ (by decide)

theorem mem_ingestAll (t : Nat) (r : SwapRow) (es : List SwapEvent) :
    ∀ (s : Store), r ∈ ingestAll s t es →
      r ∈ s ∨ ∃ e, e ∈ es ∧ r = swapHandlerRow t e := by
  induction es with
  | nil => exact fun s h => Or.inl h
  | cons e es ih =>
    intro s h
    rcases ih (ingest s t e) h with hs | ⟨e', he', hr⟩
    · unfold ingest upsert at hs
      by_cases hh : hasId s (swapHandlerRow t e).id = true
      · rw [if_pos hh] at hs
        exact Or.inl hs
      · rw [if_neg hh] at hs
        rcases List.mem_append.mp hs with h1 | h2
        · exact Or.inl h1
        · exact Or.inr ⟨e, List.mem_cons_self _ _, List.mem_singleton.mp h2⟩
    · exact Or.inr ⟨e', List.mem_cons_of_mem _ he', hr⟩

/-- C9: the configuration fixes startBlock 12376729 and endBlock 22797000, so
every row ever inserted by a configured sync run has its blockNumber inside
that closed interval — nothing outside the range is ingested and the indexer
does not sync past the end block. -/
theorem ingested_blocks_within_configured_range (chain : List SwapEvent)
    (now : Nat) (r : SwapRow) (h : r ∈ syncConfigured chain now) :
    startBlock ≤ r.blockNumber ∧ r.blockNumber ≤ endBlock := by
  rcases mem_ingestAll now r (getLogs chain startBlock endBlock) [] h with
    h0 | ⟨e, he, hr⟩
  · exact absurd h0 (List.not_mem_nil r)
  · subst hr
    rw [swapHandlerRow_blockNumber]
    have hm := (List.mem_filter.mp he).2
    simpa using hm

/-- Witness for C9: the example event at block 18000000 lands inside the
configured range after a sync over a one-event chain. -/
theorem ingested_blocks_within_configured_range_witness :
    startBlock ≤ (swapHandlerRow 0 exEvent).blockNumber ∧
      (swapHandlerRow 0 exEvent).blockNumber ≤ endBlock :=
  ingested_blocks_within_configured_range [exEvent] 0
    (swapHandlerRow 0 exEvent) (by decide)

/-- C10: every stored row carries all twelve schema columns with a value
(none is null), and a candidate row assignment that leaves any declared
column empty fails the schema's not-null check, so a query can never observe
a partial row. -/
theorem all_columns_present_and_not_null (r : SwapRow)
    (g : String → Option ColValue) (c : String)
    (hc : c ∈ swapColumns) (hg : g c = none) :
    notNullOk (rowGet r) = true ∧ notNullOk g = false := by
  constructor
  · rfl
  · exact List.all_eq_false.mpr ⟨c, hc, by simp [hg]⟩

/-- Witness for C10: the example row passes the not-null check and the empty
assignment (missing the id column, among others) is rejected. -/
theorem all_columns_present_and_not_null_witness :
    notNullOk (rowGet (swapHandlerRow 0 exEvent)) = true ∧
      notNullOk (fun _ => (none : Option ColValue)) = false :=
  all_columns_present_and_not_null (swapHandlerRow 0 exEvent)
    (fun _ => (none : Option ColValue)) "id" (by decide) rfl

/-- Counterexample for C3: with the handler of src/SwapContract.ts, a
rollback at block 18000000 followed by re-ingesting the same log at a later
wall-clock time does not reproduce the original set of rows field for field —
the original row (createdAt 0) is present before the rollback but absent from
the replayed table, whose row carries createdAt 1. -/
theorem rollback_replay_changes_createdAt :
    swapHandlerRow 0 exEvent ∈ ingestAll [] 0 [exEvent] ∧
    swapHandlerRow 0 exEvent ∉
      ingestAll (deleteFrom (ingestAll [] 0 [exEvent]) 18000000) 1 [exEvent] := by
  decide

theorem ingestAll_of_fresh (t : Nat) (es : List SwapEvent) :
    ∀ (s : Store), (es.map eventId).Nodup →
      (∀ e, e ∈ es → hasId s (eventId e) = false) →
      ingestAll s t es = s ++ es.map (swapHandlerRow t) := by
  induction es with
  | nil =>
    intro s _ _
    simp [ingestAll]
  | cons e es ih =>
    intro s hn hf
    have hfe : hasId s (eventId e) = false := hf e (List.mem_cons_self _ _)
    have step : ingest s t e = s ++ [swapHandlerRow t e] := by
      unfold ingest upsert
      rw [swapHandlerRow_id, if_neg (by simp [hfe])]
    have hcons : eventId e ∉ es.map eventId ∧ (es.map eventId).Nodup := by
      have h := hn
      rw [List.map_cons, List.nodup_cons] at h
      exact h
    have hf2 : ∀ e2, e2 ∈ es →
        hasId (s ++ [swapHandlerRow t e]) (eventId e2) = false := by
      intro e2 he2
      rw [hasId_append, hf e2 (List.mem_cons_of_mem _ he2)]
      have h1 : hasId [swapHandlerRow t e] (eventId e2) = false := by
        simp [hasId, swapHandlerRow_id]
        intro hEq
        exact hcons.1 (hEq ▸ List.mem_map_of_mem eventId he2)
      rw [h1]
      rfl
    calc ingestAll s t (e :: es) = ingestAll (ingest s t e) t es := rfl
      _ = (s ++ [swapHandlerRow t e]) ++ es.map (swapHandlerRow t) := by
          rw [step]
          exact ih _ hcons.2 hf2
      _ = s ++ (e :: es).map (swapHandlerRow t) := by
          simp [List.append_assoc]

/-- C3 (amended): deleteFrom(N) followed by re-ingesting the range [N, head]
reproduces exactly the same multiset of rows up to the createdAt column: all
chain-derived fields (id, sender, recipient, amount0, amount1, sqrtPriceX96,
liquidity, tick, blockNumber, blockTimestamp, transactionHash) agree, while
the local createdAt wall-clock timestamp may differ between the two
ingestions. -/
theorem rollback_replay_preserves_chain_fields (es : List SwapEvent)
    (t0 t1 n : Nat) (hn : (es.map eventId).Nodup) :
    List.Perm
      ((ingestAll (deleteFrom (ingestAll [] t0 es) n) t1
        (es.filter (fun e => decide (n ≤ e.block.number)))).map chainFields)
      ((ingestAll [] t0 es).map chainFields) := by
  have h0 : ingestAll [] t0 es = es.map (swapHandlerRow t0) := by
    simpa using ingestAll_of_fresh t0 es [] hn (fun e _ => rfl)
  have hdel : deleteFrom (es.map (swapHandlerRow t0)) n
      = (es.filter (fun e => decide (e.block.number < n))).map
          (swapHandlerRow t0) := by
    unfold deleteFrom
    rw [List.filter_map]
    rfl
  have hnN : ((es.filter (fun e => decide (n ≤ e.block.number))).map
      eventId).Nodup :=
    (List.Sublist.map _ (List.filter_sublist es)).nodup hn
  have hfresh : ∀ e, e ∈ es.filter (fun e => decide (n ≤ e.block.number)) →
      hasId ((es.filter (fun e => decide (e.block.number < n))).map
        (swapHandlerRow t0)) (eventId e) = false := by
    intro e he
    have hge : n ≤ e.block.number := by
      simpa using (List.mem_filter.mp he).2
    rw [hasId]
    rw [List.any_eq_false]
    intro r hr
    rcases List.mem_map.mp hr with ⟨e2, he2, rfl⟩
    have hlt : e2.block.number < n := by
      simpa using (List.mem_filter.mp he2).2
    rw [swapHandlerRow_id]
    simp only [decide_eq_true_eq]
    intro hEq
    have := congrArg Prod.fst hEq
    simp [eventId] at this
    omega
  have h2 : ingestAll (deleteFrom (ingestAll [] t0 es) n) t1
      (es.filter (fun e => decide (n ≤ e.block.number)))
      = (es.filter (fun e => decide (e.block.number < n))).map
          (swapHandlerRow t0)
        ++ (es.filter (fun e => decide (n ≤ e.block.number))).map
          (swapHandlerRow t1) := by
    rw [h0, hdel]
    exact ingestAll_of_fresh t1 _ _ hnN hfresh
  rw [h2, h0, List.map_append, List.map_map, List.map_map, List.map_map]
  have hfun : chainFields ∘ swapHandlerRow t1 = chainFields ∘ swapHandlerRow t0 :=
    funext fun e => rfl
  rw [hfun]
  have hq : es.filter (fun e => decide (n ≤ e.block.number))
      = es.filter (fun e => !decide (e.block.number < n)) := by
    apply List.filter_congr
    intro e _
    by_cases hx : e.block.number < n
    · simp [hx, show ¬(n ≤ e.block.number) from by omega]
    · simp [hx, show n ≤ e.block.number from by omega]
  rw [hq, ← List.map_append]
  exact (List.filter_append_perm (fun e => decide (e.block.number < n)) es).map
    (chainFields ∘ swapHandlerRow t0)

/-- Witness for C3 (amended): for the one-event chain at block 18000000, a
rollback at that block and a re-ingestion at a later wall-clock time yields
the same chain-derived fields as before the rollback. -/
theorem rollback_replay_preserves_chain_fields_witness :
    List.Perm
      ((ingestAll (deleteFrom (ingestAll [] 0 [exEvent]) 18000000) 1
        ([exEvent].filter (fun e => decide (18000000 ≤ e.block.number)))).map
          chainFields)
      ((ingestAll [] 0 [exEvent]).map chainFields) :=
  rollback_replay_preserves_chain_fields [exEvent] 0 1 18000000 (by decide)

end UniV3
